import Mathlib

/-!
Verification development for the aqacs-hts tariff service.

Python strings are modelled as `List Char` (`PStr`), dictionaries as
association lists, floating-point confidence scores as rationals (only
order comparisons are performed on them, so the embedding is faithful for
every representable value), and fallible code as `Except`/`Option`.
-/

/-- Python-style strings: lists of characters. -/
abbrev PStr := List Char

/-- Coerce a Lean string literal into the character-list representation. -/
def str (s : String) : PStr := s.data

/-- Translation of Python `str.strip()`: drop whitespace on both ends. -/
def pstrip (s : PStr) : PStr :=
  ((s.dropWhile Char.isWhitespace).reverse.dropWhile Char.isWhitespace).reverse

/-- Translation of Python `s.replace(" ", "")`: remove every space. -/
def stripSpaces (s : PStr) : PStr := s.filter (fun c => !(c == ' '))

/-- Translation of Python `s.rsplit(" ", 1)[0]`: drop the final
space-separated fragment (and the space) when a space exists, otherwise
return the string unchanged. -/
def dropLastWord (s : PStr) : PStr :=
  match s.reverse.dropWhile (fun c => !(c == ' ')) with
  | [] => s
  | _ :: rest => rest.reverse

/-- Translation of the truncation idiom
`s[:cap].rsplit(" ", 1)[0] if len(s) > cap else s` used by the context
assembler (v1.py lines 79-81). -/
def pyTruncate (s : PStr) (cap : Nat) : PStr :=
  if cap < s.length then dropLastWord (s.take cap) else s

example : pstrip (str "  ab c ") = str "ab c" := by decide
example : dropLastWord (str "abc def") = str "abc" := by decide
example : dropLastWord (str "abcdef") = str "abcdef" := by decide
example : dropLastWord (str "a  b") = str "a " := by decide
example : pyTruncate (str "abc def") 5 = str "abc" := by decide
example : stripSpaces (str "01 23") = str "0123" := by decide

/-- Splitting a list at its first space: used to reason about `dropLastWord`
through the reversed list. -/
theorem dropWhile_mem_space (r : List Char) (h : ' ' ∈ r) :
    ∃ u w, r = u ++ ' ' :: w ∧ ' ' ∉ u ∧
      r.dropWhile (fun c => !(c == ' ')) = ' ' :: w := by
  induction r with
  | nil => cases h
  | cons c r' ih =>
    by_cases hc : c = ' '
    · subst hc
      exact ⟨[], r', rfl, by simp, by simp [List.dropWhile]⟩
    · have h' : ' ' ∈ r' := by
        rcases List.mem_cons.mp h with h1 | h1
        · exact absurd h1.symm hc
        · exact h1
      obtain ⟨u, w, hr, hu, hd⟩ := ih h'
      refine ⟨c :: u, w, by simp [hr], ?_, ?_⟩
      · intro hmem
        rcases List.mem_cons.mp hmem with h1 | h1
        · exact hc h1.symm
        · exact hu h1
      · have hbc : (fun c => !(c == ' ')) c = true := by
          simp [hc]
        simp [List.dropWhile, hbc, hd]

/-- When the string contains no space, `dropLastWord` returns it unchanged. -/
theorem dropLastWord_eq_of_not_mem (s : PStr) (h : ' ' ∉ s) :
    dropLastWord s = s := by
  have h' : ∀ c ∈ s.reverse, (fun c => !(c == ' ')) c = true := by
    intro c hc
    have hcm : c ∈ s := List.mem_reverse.mp hc
    have hcne : c ≠ ' ' := fun hcs => h (hcs ▸ hcm)
    simp [hcne]
  have : s.reverse.dropWhile (fun c => !(c == ' ')) = [] :=
    List.dropWhile_eq_nil_iff.mpr h'
  simp [dropLastWord, this]

/-- When the string contains a space, `dropLastWord` removes a final
(space-free) fragment together with the separating space, so the result
followed by a space is a prefix of the original. -/
theorem dropLastWord_prefix_of_mem (s : PStr) (h : ' ' ∈ s) :
    dropLastWord s ++ [' '] <+: s := by
  have hrev : ' ' ∈ s.reverse := List.mem_reverse.mpr h
  obtain ⟨u, w, hr, hu, hd⟩ := dropWhile_mem_space s.reverse hrev
  have hs : s = w.reverse ++ ' ' :: u.reverse := by
    have := congrArg List.reverse hr
    simpa [List.reverse_append] using this
  have hres : dropLastWord s = w.reverse := by
    unfold dropLastWord
    rw [hd]
  exact ⟨u.reverse, by rw [hres, hs]; simp⟩

/-- Behaviour of the truncation idiom: the result is capped at `cap`
characters and is the untouched string, a prefix ending at a space
boundary, or (when the first `cap` characters hold no space) the raw
`cap`-character prefix. -/
theorem pyTruncate_spec (s : PStr) (cap : Nat) :
    (pyTruncate s cap).length ≤ cap ∧
    (pyTruncate s cap = s ∨ (pyTruncate s cap ++ [' ']) <+: s ∨
      (' ' ∉ s.take cap ∧ pyTruncate s cap = s.take cap)) := by
  by_cases hlen : cap < s.length
  · have hres : pyTruncate s cap = dropLastWord (s.take cap) := by
      simp [pyTruncate, hlen]
    by_cases hsp : ' ' ∈ s.take cap
    · have hpre : dropLastWord (s.take cap) ++ [' '] <+: s.take cap :=
        dropLastWord_prefix_of_mem _ hsp
      have hpre' : dropLastWord (s.take cap) ++ [' '] <+: s :=
        hpre.trans (List.take_prefix cap s)
      constructor
      · rw [hres]
        have h1 : (dropLastWord (s.take cap) ++ [' ']).length ≤ (s.take cap).length :=
          hpre.length_le
        have h2 : (s.take cap).length ≤ cap := by
          simp [List.length_take]
        simp only [List.length_append, List.length_cons, List.length_nil] at h1
        omega
      · right; left
        simpa [hres] using hpre'
    · have heq : dropLastWord (s.take cap) = s.take cap :=
        dropLastWord_eq_of_not_mem _ hsp
      constructor
      · have h2 : (s.take cap).length ≤ cap := by simp [List.length_take]
        rw [hres, heq]
        omega
      · right; right
        exact ⟨hsp, by rw [hres, heq]⟩
  · have hres : pyTruncate s cap = s := by simp [pyTruncate, hlen]
    constructor
    · rw [hres]; omega
    · left; exact hres

/-! ### Payload values and the context assembler (v1.py `_normalize_val`, `_payload_context`) -/

mutual
/-- Dynamic payload values coming back from the vector store: `None`,
strings, integers, or (possibly nested) lists, as handled by
`_normalize_val`. -/
inductive Value where
  | vNone : Value
  | vStr : PStr → Value
  | vInt : Int → Value
  | vList : ValueList → Value
/-- Lists of payload values (kept as a mutual inductive so that all
functions over values are structurally recursive). -/
inductive ValueList where
  | nil : ValueList
  | cons : Value → ValueList → ValueList
end

mutual
def valueDecEq : (a b : Value) → Decidable (a = b)
  | .vNone, .vNone => isTrue rfl
  | .vStr s, .vStr t =>
    match decEq s t with
    | isTrue h => isTrue (by rw [h])
    | isFalse h => isFalse (by intro hc; cases hc; exact h rfl)
  | .vInt m, .vInt n =>
    match decEq m n with
    | isTrue h => isTrue (by rw [h])
    | isFalse h => isFalse (by intro hc; cases hc; exact h rfl)
  | .vList l, .vList m =>
    match valueListDecEq l m with
    | isTrue h => isTrue (by rw [h])
    | isFalse h => isFalse (by intro hc; cases hc; exact h rfl)
  | .vNone, .vStr _ => isFalse (by intro h; cases h)
  | .vNone, .vInt _ => isFalse (by intro h; cases h)
  | .vNone, .vList _ => isFalse (by intro h; cases h)
  | .vStr _, .vNone => isFalse (by intro h; cases h)
  | .vStr _, .vInt _ => isFalse (by intro h; cases h)
  | .vStr _, .vList _ => isFalse (by intro h; cases h)
  | .vInt _, .vNone => isFalse (by intro h; cases h)
  | .vInt _, .vStr _ => isFalse (by intro h; cases h)
  | .vInt _, .vList _ => isFalse (by intro h; cases h)
  | .vList _, .vNone => isFalse (by intro h; cases h)
  | .vList _, .vStr _ => isFalse (by intro h; cases h)
  | .vList _, .vInt _ => isFalse (by intro h; cases h)
def valueListDecEq : (a b : ValueList) → Decidable (a = b)
  | .nil, .nil => isTrue rfl
  | .cons v l, .cons w m =>
    match valueDecEq v w, valueListDecEq l m with
    | isTrue h1, isTrue h2 => isTrue (by rw [h1, h2])
    | isFalse h1, _ => isFalse (by intro hc; cases hc; exact h1 rfl)
    | _, isFalse h2 => isFalse (by intro hc; cases hc; exact h2 rfl)
  | .nil, .cons _ _ => isFalse (by intro h; cases h)
  | .cons _ _, .nil => isFalse (by intro h; cases h)
end

instance : DecidableEq Value := valueDecEq

instance : DecidableEq ValueList := valueListDecEq

mutual
/-- Translation of `_normalize_val` (v1.py lines 35-42): `None` becomes the
empty string, strings are stripped, iterables are flattened to a
comma-joined string of their non-empty normalized members, and other
scalars are stringified then stripped. -/
def normalizeVal : Value → PStr
  | .vNone => []
  | .vStr s => pstrip s
  | .vInt n => pstrip (str (toString n))
  | .vList l => List.intercalate (str ", ") (normalizeList l)
/-- The generator `[_normalize_val(v) for v in val if _normalize_val(v)]`
inside `_normalize_val`. -/
def normalizeList : ValueList → List PStr
  | .nil => []
  | .cons v l =>
    (if normalizeVal v = [] then [] else [normalizeVal v]) ++ normalizeList l
end

example : normalizeVal (.vList (.cons (.vStr (str " a ")) (.cons .vNone
    (.cons (.vInt 7) .nil)))) = str "a, 7" := by decide

/-- Payloads: insertion-ordered string-keyed mappings (Python dicts). -/
abbrev Payload := List (PStr × Value)

/-- Python `dict.get`: later bindings overwrite earlier ones, so lookup
finds the last binding for the key. -/
def pyDictGet (l : List (PStr × Value)) (k : PStr) : Option Value :=
  (l.reverse.find? (fun e => e.1 == k)).map (·.2)

/-- Maximum characters of assembled context (v1.py line 25). -/
def MAX_CONTEXT_CHARS : Nat := 1200

/-- Maximum number of contexts sent to the extractor (v1.py line 24). -/
def MAX_CONTEXTS : Nat := 5

/-- The fixed priority list of field names of `_payload_context`
(v1.py lines 46-60). -/
def preferredKeys : List PStr :=
  [str "Description", str "Article Description", str "article",
   str "HTS Number", str "htsno", str "hts10", str "Indent",
   str "Unit of Quantity", str "General Rate of Duty",
   str "Special Rate of Duty", str "Column 2 Rate of Duty",
   str "Additional Duties", str "Quota Quantity"]

/-- First loop of `_payload_context` (v1.py lines 63-68): walk the
priority keys, emit non-empty normalized values, and record every visited
key that is present in the payload. Returns (parts, seen). -/
def preferredPass (payload : Payload) : List PStr × List PStr :=
  preferredKeys.foldl
    (fun acc key =>
      if (pyDictGet payload key).isSome && !(acc.2.contains key) then
        let val := normalizeVal ((pyDictGet payload key).getD .vNone)
        (acc.1 ++ (if val = [] then [] else [key ++ str ": " ++ val]),
         acc.2 ++ [key])
      else acc)
    ([], [])

/-- Second loop of `_payload_context` (v1.py lines 69-77): walk the
remaining payload items in order, emit non-empty normalized values,
and stop once more than `MAX_CONTEXT_CHARS / 20` segments are emitted. -/
def remainingPass (parts : List PStr) (seen : List PStr) :
    Payload → List PStr
  | [] => parts
  | (key, val) :: rest =>
    if seen.contains key then remainingPass parts seen rest
    else
      let norm := normalizeVal val
      let parts' := parts ++ (if norm = [] then [] else [key ++ str ": " ++ norm])
      let seen' := seen ++ (if norm = [] then [] else [key])
      if MAX_CONTEXT_CHARS / 20 < parts'.length then parts'
      else remainingPass parts' seen' rest

/-- The `" | "`-joined context string before truncation
(v1.py line 78). -/
def assembledContext (payload : Payload) : PStr :=
  List.intercalate (str " | ")
    (remainingPass (preferredPass payload).1 (preferredPass payload).2 payload)

/-- Translation of `_payload_context` (v1.py lines 45-81): assemble the
prioritized field segments and hard-truncate at `MAX_CONTEXT_CHARS`,
dropping the final partial word. -/
def payloadContext (payload : Payload) : PStr :=
  pyTruncate (assembledContext payload) MAX_CONTEXT_CHARS

example : payloadContext [(str "Description", .vStr (str " horses ")),
    (str "zz", .vNone), (str "aa", .vInt 3)] =
    str "Description: horses | aa: 3" := by decide

/-! ### Snapshot resolver (common/snapshot.py) -/

/-- State of the active-snapshot marker file as observed by
`active_snapshot_id`: missing, unreadable (`OSError`), undecodable
(`json.JSONDecodeError`), or a parsed JSON object of string fields.
(A marker holding a decodable non-object JSON value is outside the
modelled state space.) -/
inductive MarkerFile where
  | noFile : MarkerFile
  | unreadable : MarkerFile
  | badJson : MarkerFile
  | jsonObj : List (PStr × PStr) → MarkerFile
deriving DecidableEq

/-- Lookup in a parsed JSON object (later duplicate keys overwrite). -/
def jsonGet (fields : List (PStr × PStr)) (k : PStr) : Option PStr :=
  (fields.reverse.find? (fun e => e.1 == k)).map (·.2)

/-- The id the marker yields, when the file exists, reads, decodes, and
carries the key (`get_active`, snapshot.py lines 10-12; all of
`OSError`, `JSONDecodeError` and `KeyError` surface as `none`). -/
def markerId : MarkerFile → Option PStr
  | .noFile => none
  | .unreadable => none
  | .badJson => none
  | .jsonObj fields => jsonGet fields (str "snapshot_id")

/-- Translation of `active_snapshot_id` (snapshot.py lines 14-26): if the
marker file exists, try to read and parse it, swallowing any failure;
otherwise (or on failure) fall back to the `SNAPSHOT_ID` environment
variable and finally to the hardcoded placeholder. `env` is the value of
`os.getenv("SNAPSHOT_ID", ...)`'s variable, `default` the optional
function argument (callers pass none). -/
def active_snapshot_id (m : MarkerFile) (env : Option PStr)
    (default : Option PStr) : PStr :=
  let fallback :=
    env.getD (default.getD (str "US-HTS-YYYY-MM-DD"))
  match m with
  | .noFile => fallback
  | .unreadable => fallback
  | .badJson => fallback
  | .jsonObj fields =>
    match jsonGet fields (str "snapshot_id") with
    | some v => v
    | none => fallback

example : active_snapshot_id (.jsonObj [(str "snapshot_id", str "S1")])
    (some (str "S2")) none = str "S1" := by decide
example : active_snapshot_id .badJson (some (str "S2")) none = str "S2" := by decide
example : active_snapshot_id .noFile none none = str "US-HTS-YYYY-MM-DD" := by decide

/-! ### Section classifier (common/sections.py) -/

/-- The fixed 22-band chapter table (sections.py lines 1-7). -/
def SECTIONS : List (Int × Int × PStr) :=
  [(1,5,str "I"),(6,14,str "II"),(15,15,str "III"),(16,24,str "IV"),
   (25,27,str "V"),(28,38,str "VI"),(39,40,str "VII"),(41,43,str "VIII"),
   (44,46,str "IX"),(47,49,str "X"),(50,63,str "XI"),(64,67,str "XII"),
   (68,70,str "XIII"),(71,83,str "XIV"),(84,85,str "XV"),(86,89,str "XVI"),
   (90,92,str "XVII"),(93,94,str "XVIII"),(95,95,str "XIX"),
   (96,96,str "XX"),(97,97,str "XXI"),(98,99,str "XXII")]

/-- Translation of `chapter_to_section` (sections.py lines 8-14): first
band containing the chapter wins; `None` in, or no band, yields `None`. -/
def chapter_to_section (ch : Option Int) : Option PStr :=
  match ch with
  | none => none
  | some c =>
    (SECTIONS.find? (fun b => decide (b.1 ≤ c) && decide (c ≤ b.2.1))).map
      (·.2.2)

example : chapter_to_section (some 1) = some (str "I") := by decide
example : chapter_to_section (some 99) = some (str "XXII") := by decide
example : chapter_to_section (some 0) = none := by decide
example : chapter_to_section none = none := by decide

/-! ### Tariff store (common/store.py) -/

/-- A normalized CSV row: the `dict(zip(keys, row))` of `_read_csv`, an
insertion-ordered mapping from mapped header names to cell strings. -/
abbrev Row := List (PStr × PStr)

/-- Python `dict.get` over a row (later duplicate headers overwrite). -/
def rowGet (row : Row) (k : PStr) : Option PStr :=
  (row.reverse.find? (fun e => e.1 == k)).map (·.2)

/-- Translation of Python `s.isdigit()` for ASCII text: non-empty and all
decimal digits (the wider Unicode digit classes are out of scope). -/
def pyIsdigit (s : PStr) : Bool := !s.isEmpty && s.all Char.isDigit

/-- Translation of Python `int(s)` on an all-digit ASCII string. -/
def strToNat (s : PStr) : Nat :=
  s.foldl (fun n c => 10 * n + (c.toNat - '0'.toNat)) 0

/-- A tariff record as produced by `_mk_rec` (store.py lines 28-43). -/
structure Rec where
  hts10 : PStr
  chapter : Int
  heading6 : PStr
  stat_suffix : PStr
  article : Option PStr
  uoq : Option PStr
  rate_general : Option PStr
  rate_special : Option PStr
  rate_col2 : Option PStr
deriving DecidableEq

/-- Translation of `_mk_rec` (store.py lines 28-43): derive the 10-digit
code from heading plus stat suffix (spaces removed), take the chapter from
the first two heading characters when they are all digits (else 0), and
copy the remaining columns. -/
def mkRec (row : Row) : Rec :=
  let hs := (rowGet row (str "hs")).getD []
  let stat := pstrip ((rowGet row (str "stat")).getD [])
  { hts10 := stripSpaces (hs ++ stat)
    chapter := if pyIsdigit (hs.take 2) then (strToNat (hs.take 2) : Int) else 0
    heading6 := hs.take 7
    stat_suffix := stat
    article := rowGet row (str "article")
    uoq := rowGet row (str "uoq")
    rate_general := rowGet row (str "gen")
    rate_special := rowGet row (str "spec")
    rate_col2 := rowGet row (str "col2") }

/-- The code → record index built by `Store._load_latest` (store.py lines
54-59): records with a non-empty derived code are inserted in row order
(later rows overwrite earlier ones holding the same code). -/
def mkIndex (rows : List Row) : List (PStr × Rec) :=
  rows.foldl
    (fun idx row =>
      let r := mkRec row
      if r.hts10 ≠ [] then idx ++ [(r.hts10, r)] else idx)
    []

/-- Python dict lookup over the index (last binding wins). -/
def indexGet (idx : List (PStr × Rec)) (k : PStr) : Option Rec :=
  (idx.reverse.find? (fun e => e.1 == k)).map (·.2)

/-- Translation of `Store.get_by_code` (store.py lines 61-62): strip all
spaces from the queried code and look it up exactly in the index. -/
def get_by_code (rows : List Row) (code : PStr) : Option Rec :=
  indexGet (mkIndex rows) (stripSpaces code)

/-- Python `None`-printing of an optional section label inside an f-string. -/
def pyFormatOpt : Option PStr → PStr
  | none => str "None"
  | some s => s

/-- The templated citation string `f"HTSUS §{...}, Ch.{...}, {...}"` built
by the lookup and search responses (v1.py lines 107 and 130-131). -/
def devCitation (r : Rec) : PStr :=
  str "HTSUS §" ++ pyFormatOpt (chapter_to_section (some r.chapter)) ++
    str ", Ch." ++ str (toString r.chapter) ++ str ", " ++ r.hts10

example : mkRec [(str "hs", str "01020304"), (str "stat", str "05"),
    (str "gen", str "Free")] =
    { hts10 := str "0102030405", chapter := 1, heading6 := str "0102030"
      stat_suffix := str "05", article := none, uoq := none
      rate_general := some (str "Free"), rate_special := none
      rate_col2 := none } := by decide
example : get_by_code [[(str "hs", str "01020304"), (str "stat", str "05")]]
    (str "01 0203 0405") = some (mkRec [(str "hs", str "01020304"),
    (str "stat", str "05")]) := by decide
example : devCitation (mkRec [(str "hs", str "x")]) =
    str "HTSUS §None, Ch.0, x" := by decide

/-! ### Fuzzy search (store.py `Store.search_article`) -/

/-- Stable insertion into a descending-by-score list: the new element goes
before the first entry whose score does not exceed it, so earlier-inserted
equal scores keep priority. -/
def insertDesc (x : (PStr × Nat) × ℚ × Nat) :
    List ((PStr × Nat) × ℚ × Nat) → List ((PStr × Nat) × ℚ × Nat)
  | [] => [x]
  | y :: l => if y.2.1 ≤ x.2.1 then x :: y :: l else y :: insertDesc x l

/-- Stable sort by descending score. -/
def sortDesc : List ((PStr × Nat) × ℚ × Nat) →
    List ((PStr × Nat) × ℚ × Nat)
  | [] => []
  | x :: l => insertDesc x (sortDesc l)

/-- Modelled from the spec: `rapidfuzz.process.extract` is third-party
code not under src/. Per its contract it scores every choice with the
scorer and returns up to `limit` triples `(choice, score, index)`,
highest score first, stable on ties (lower original index wins). -/
def pyExtract (q : PStr) (choices : List (PStr × Nat))
    (scorer : PStr → PStr × Nat → ℚ) (limit : Nat) :
    List ((PStr × Nat) × ℚ × Nat) :=
  (sortDesc (choices.enum.map (fun p => (p.2, scorer q p.2, p.1)))).take limit

/-- The tuple unpacking `(_label, score, (text, i))` applied to each
triple returned by the fuzzy matcher (store.py line 67): the third triple
component is the integer index of the choice, and unpacking an `int` into
a pair raises `TypeError` in Python. -/
def unpackKey (k : Nat) : Except PStr (PStr × Nat) :=
  match k with
  | _ => .error (str "TypeError: cannot unpack non-iterable int object")

/-- Translation of `Store.search_article` (store.py lines 64-67): build
`(article, index)` choice tuples, run the fuzzy matcher, then unpack each
result triple and project the rows at the recovered indices. -/
def search_article (rows : List Rec) (q : PStr) (limit : Nat)
    (scorer : PStr → PStr × Nat → ℚ) : Except PStr (List Rec) :=
  let choices := rows.enum.map (fun p => (p.2.article.getD [], p.1))
  (pyExtract q choices scorer limit).mapM
    (fun t => (unpackKey t.2.2).map (fun ti => rows.getD ti.2 (mkRec [])))

instance {ε α : Type} [DecidableEq ε] [DecidableEq α] :
    DecidableEq (Except ε α)
  | .error a, .error b =>
    match decEq a b with
    | isTrue h => isTrue (by rw [h])
    | isFalse h => isFalse (by intro hc; cases hc; exact h rfl)
  | .ok a, .ok b =>
    match decEq a b with
    | isTrue h => isTrue (by rw [h])
    | isFalse h => isFalse (by intro hc; cases hc; exact h rfl)
  | .error _, .ok _ => isFalse (by intro h; cases h)
  | .ok _, .error _ => isFalse (by intro h; cases h)

example : search_article [] (str "horses") 5 (fun _ _ => 9/10) = .ok [] := by
  decide

/-! ### QA and semantic-search endpoints (api/routes/v1.py) -/

/-- Python truthiness of a payload value. -/
def vFalsy : Value → Bool
  | .vNone => true
  | .vStr s => s.isEmpty
  | .vInt n => n == 0
  | .vList .nil => true
  | .vList (.cons _ _) => false

/-- Python `a or b` over payload values. -/
def pyOrV (a b : Value) : Value := if vFalsy a then b else a

/-- A retrieved vector hit: id, similarity score, payload (each of which
the qdrant client may in principle return as `None`). -/
structure Point where
  id : PStr
  score : Option ℚ
  payload : Option Payload
deriving DecidableEq

/-- `payload.get(key)` with `None` for an absent key. -/
def pyGetV (pl : Payload) (k : PStr) : Value := (pyDictGet pl k).getD .vNone

/-- A source entry of the QA response (v1.py lines 216-230). -/
structure Source where
  id : PStr
  score : ℚ
  chapter : Value
  code : Value
  description : Value
  source_csv : Value
  row_index : Value
deriving DecidableEq

/-- Translation of the per-point source construction (v1.py lines
211-230), including the `or`-chains over alternative payload keys. -/
def mkSource (pt : Point) : Source :=
  let pl := pt.payload.getD []
  { id := pt.id
    score := pt.score.getD 0
    chapter := pyGetV pl (str "chapter")
    code := pyOrV (pyGetV pl (str "HTS Number"))
      (pyOrV (pyGetV pl (str "htsno")) (pyGetV pl (str "hts10")))
    description := pyOrV (pyGetV pl (str "Description"))
      (pyOrV (pyGetV pl (str "article")) (pyGetV pl (str "Article Description")))
    source_csv := pyGetV pl (str "source_csv")
    row_index := pyGetV pl (str "row_index") }

/-- The "no confident answer" sentinel text (v1.py lines 250, 257, 259). -/
def sentinel : PStr :=
  str "No confident answer found; review the supporting sources."

/-- The fixed minimum confidence threshold: default 0.2 of the
`QA_MIN_SCORE` environment variable (v1.py line 26). -/
def MIN_QA_SCORE : ℚ := mkRat 1 5

/-- A candidate answer collected from one context (v1.py lines 236-244). -/
structure Cand where
  answer : PStr
  score : ℚ
  context : PStr
  payload : Payload
deriving DecidableEq

/-- Translation of Python `max(answers, key=lambda a: a["score"])`: fold
keeping the current element unless a strictly greater score appears, so
the first-seen maximum wins. -/
def pymaxCand (a : Cand) (l : List Cand) : Cand :=
  l.foldl (fun acc c => if acc.score < c.score then c else acc) a

/-- The QA endpoint's success response shape (v1.py lines 246-273). -/
structure QAResponse where
  snapshot : PStr
  question : PStr
  answer : PStr
  confidence : ℚ
  supporting_excerpt : Option PStr
  sources : List Source
deriving DecidableEq

/-- The supporting excerpt: the winning context truncated to 280
characters at a word boundary with an ellipsis when truncated
(v1.py lines 262-264). -/
def snippetOf (ctx : PStr) : PStr :=
  if 280 < ctx.length then dropLastWord (ctx.take 280) ++ str "..."
  else ctx.take 280

/-- Translation of the answer-selection tail of the QA endpoint
(v1.py lines 246-273): no candidates yield the sentinel with confidence
0.0 and no excerpt; otherwise the first-seen maximum-score candidate is
chosen, its text replaced by the sentinel when empty, and both text and
confidence replaced by the sentinel and 0.0 when the winning confidence
is below the threshold; the excerpt snippet of the winning context is
always attached in this branch. -/
def buildQAResponse (snap q : PStr) (answers : List Cand)
    (sources : List Source) : QAResponse :=
  match answers with
  | [] =>
    { snapshot := snap, question := q, answer := sentinel, confidence := 0
      supporting_excerpt := none, sources := sources }
  | a :: rest =>
    let best := pymaxCand a rest
    let withText := if best.answer = [] then sentinel else best.answer
    let final :=
      if best.score < MIN_QA_SCORE then (sentinel, (0 : ℚ))
      else (withText, best.score)
    { snapshot := snap, question := q, answer := final.1
      confidence := final.2
      supporting_excerpt := some (snippetOf best.context)
      sources := sources }

/-- Output of one invocation of the extractive QA capability (treated as
a black box): answer text plus optional confidence. -/
structure PipeOut where
  answer : PStr
  score : Option ℚ

/-- Outcome of a request: an HTTP error (status, detail) or a response. -/
inductive QAResult where
  | err : Int → PStr → QAResult
  | ok : QAResponse → QAResult
deriving DecidableEq

/-- The limit the QA endpoint passes to the vector backend:
`max(1, min(req.limit, 12))` (v1.py line 195). -/
def qaSearchLimit (n : Int) : Int := max 1 (min n 12)

/-- The limit the semantic-search endpoint passes to the vector backend:
the caller's value, forwarded unchanged (v1.py lines 146 and 155). -/
def semanticBackendLimit (n : Int) : Int := n

/-- Translation of the `qa` endpoint (v1.py lines 185-273). `backend`
stands for the qdrant search call (which may raise), `pipe` for the local
QA pipeline; both are parameters because they are external capabilities. -/
def qa (snap question : PStr) (reqLimit : Int)
    (backend : Int → Except PStr (List Point))
    (pipe : PStr → PStr → PipeOut) : QAResult :=
  if pstrip question = [] then .err 400 (str "question cannot be empty")
  else
    match backend (qaSearchLimit reqLimit) with
    | .error e => .err 503 (str "qdrant error: " ++ e)
    | .ok points =>
      if points.isEmpty then .err 404 (str "no relevant context found")
      else
        let contexts := points.filterMap (fun pt =>
          let c := payloadContext (pt.payload.getD [])
          if c = [] then none else some (c, pt.payload.getD []))
        let sources := points.map mkSource
        let answers := (contexts.take MAX_CONTEXTS).filterMap (fun cp =>
          let out := pipe question cp.1
          if out.answer = [] then none
          else some (⟨pstrip out.answer, out.score.getD 0, cp.1, cp.2⟩ : Cand))
        .ok (buildQAResponse snap question answers sources)

/-- An item of the semantic-search response (v1.py lines 161-176). -/
structure SemItem where
  id : PStr
  score : ℚ
  chapter : Value
  article : Value
  code : Value
  rate_general : Value
  rate_special : Value
  rate_col2 : Value
  source_csv : Value
deriving DecidableEq

/-- Translation of the per-hit item of `semantic_search` (v1.py lines
162-175); the code indexes `p.payload` directly, presuming it present. -/
def mkSemItem (pt : Point) : SemItem :=
  let pl := pt.payload.getD []
  { id := pt.id
    score := pt.score.getD 0
    chapter := pyGetV pl (str "chapter")
    article := pyGetV pl (str "article")
    code := pyOrV (pyGetV pl (str "htsno")) (pyGetV pl (str "hts10"))
    rate_general := pyGetV pl (str "rate_general")
    rate_special := pyGetV pl (str "rate_special")
    rate_col2 := pyGetV pl (str "rate_col2")
    source_csv := pyGetV pl (str "source_csv") }

/-- The semantic-search response (v1.py lines 159-177). -/
structure SemanticResponse where
  snapshot : PStr
  items : List SemItem
deriving DecidableEq

/-- Translation of the `semantic_search` endpoint (v1.py lines 145-177):
the caller-supplied limit reaches the backend with no clamping. -/
def semantic_search (snap q : PStr) (reqLimit : Int)
    (backend : Int → List Point) : SemanticResponse :=
  { snapshot := snap
    items := (backend (semanticBackendLimit reqLimit)).map mkSemItem }

example : qa (str "S") (str "  ") 8 (fun _ => .ok []) (fun _ _ => ⟨[], none⟩) =
    .err 400 (str "question cannot be empty") := by decide
example : qa (str "S") (str "q?") 8 (fun _ => .ok []) (fun _ _ => ⟨[], none⟩) =
    .err 404 (str "no relevant context found") := by decide

/-! ### Claims -/

/-- C4: `active_snapshot_id` resolution order — a marker that exists,
reads, and parses with a snapshot-id field wins even when the environment
override is set; any read or parse failure (missing file, `OSError`,
`JSONDecodeError`, `KeyError`) is swallowed and falls through to the
environment value and finally the hardcoded placeholder, never raising. -/
theorem active_snapshot_resolution (m : MarkerFile) (env : Option PStr)
    (default : Option PStr) :
    active_snapshot_id m env default =
      (markerId m).getD (env.getD (default.getD (str "US-HTS-YYYY-MM-DD"))) := by
  cases m with
  | jsonObj fields =>
    cases hj : jsonGet fields (str "snapshot_id") with
    | none => simp [active_snapshot_id, markerId, hj]
    | some v => simp [active_snapshot_id, markerId, hj]
  | noFile => simp [active_snapshot_id, markerId]
  | unreadable => simp [active_snapshot_id, markerId]
  | badJson => simp [active_snapshot_id, markerId]

/-- C8: `chapter_to_section` is a pure total function over the band
table: every chapter 1–99 gets a section label, chapter 1 maps to I and
chapter 99 to XXII, and an absent chapter or one outside 1–99 yields
absent. -/
theorem chapter_section_total (c : Int) :
    (1 ≤ c → c ≤ 99 → (chapter_to_section (some c)).isSome) ∧
    chapter_to_section (some 1) = some (str "I") ∧
    chapter_to_section (some 99) = some (str "XXII") ∧
    (c < 1 ∨ 99 < c → chapter_to_section (some c) = none) ∧
    chapter_to_section none = none := by
  refine ⟨?_, by decide, by decide, ?_, rfl⟩
  · intro h1 h2
    interval_cases c <;> decide
  · intro hc
    have hfind : SECTIONS.find?
        (fun b => decide (b.1 ≤ c) && decide (c ≤ b.2.1)) = none := by
      rw [List.find?_eq_none]
      intro b hb
      rcases hc with hc | hc <;>
        fin_cases hb <;>
          simp only [Bool.and_eq_true, decide_eq_true_eq, not_and] <;>
          omega
    simp [chapter_to_section, hfind]

/-- C8 witness: chapter 40 gets a label; chapter 100 gets none. -/
theorem chapter_section_total_witness :
    (chapter_to_section (some 40)).isSome ∧
    chapter_to_section (some 100) = none :=
  ⟨(chapter_section_total 40).1 (by decide) (by decide),
   (chapter_section_total 100).2.2.2.1 (Or.inr (by decide))⟩

/-- C5 counterexample: the semantic-search endpoint does not clamp — a
caller limit of 0 (below the claimed minimum 1) and of 13 (above the
claimed maximum 12) reach the vector backend unchanged, observable
because a backend that returns a hit only for a positive limit yields an
empty item list. -/
theorem limit_clamping_cex :
    semanticBackendLimit 0 = 0 ∧ ¬(1 ≤ semanticBackendLimit 0) ∧
    semanticBackendLimit 13 = 13 ∧ ¬(semanticBackendLimit 13 ≤ 12) ∧
    (semantic_search (str "S") (str "ab") 0
      (fun n => if 1 ≤ n then [⟨str "p1", some 1, some []⟩] else [])).items =
      [] := by
  decide

/-- C5 amended: only the QA endpoint clamps the caller-supplied limit to
the range 1..12 before passing it to the vector backend (the QA request
observes the backend solely at the clamped limit); the semantic-search
endpoint forwards the caller's limit to the backend unchanged. -/
theorem limit_clamping_amended (n : Int) :
    1 ≤ qaSearchLimit n ∧ qaSearchLimit n ≤ 12 ∧
    semanticBackendLimit n = n ∧
    (∀ snap q b₁ b₂ pipe, b₁ (qaSearchLimit n) = b₂ (qaSearchLimit n) →
      qa snap q n b₁ pipe = qa snap q n b₂ pipe) ∧
    (∀ snap q b, semantic_search snap q n b =
      ⟨snap, (b (semanticBackendLimit n)).map mkSemItem⟩) := by
  refine ⟨le_max_left 1 _, max_le (by norm_num) (min_le_right n 12), rfl,
    ?_, fun snap q b => rfl⟩
  intro snap q b₁ b₂ pipe h
  simp only [qa, h]

/-- C5 witness: the amended statement at limit 5 with two extensionally
agreeing backends. -/
theorem limit_clamping_amended_witness :
    1 ≤ qaSearchLimit 5 ∧
    qa (str "S") (str "q") 5 (fun _ => .ok []) (fun _ _ => ⟨[], none⟩) =
      qa (str "S") (str "q") 5 (fun _ => .ok []) (fun _ _ => ⟨[], none⟩) :=
  ⟨(limit_clamping_amended 5).1,
   (limit_clamping_amended 5).2.2.2.1 (str "S") (str "q") _ _ _ rfl⟩

/-- C9: on any non-empty corpus `search_article` raises — the fuzzy
matcher returns `(choice, score, index)` triples and the comprehension
unpacks the integer index as a pair, a `TypeError`; only the empty corpus
returns an empty list. The spec's intended ranked-record return is never
produced. -/
theorem search_article_type_error :
    search_article
      [mkRec [(str "hs", str "01012100"), (str "stat", str "10"),
        (str "article", str "Live purebred breeding horses")]]
      (str "horses") 5 (fun _ _ => 9/10) =
      .error (str "TypeError: cannot unpack non-iterable int object") ∧
    search_article [] (str "horses") 5 (fun _ _ => 9/10) = .ok [] := by
  decide

/-- The claim C10's phrase for a heading that begins with two decimal
digits, stated from the spec's words for comparison with the code's
`hs[:2].isdigit()` test. -/
def beginsWithTwoDecDigits (s : PStr) : Bool :=
  match s with
  | a :: b :: _ => a.isDigit && b.isDigit
  | _ => false

/-- C10 counterexample: a one-character digit heading "7" does not begin
with two decimal digits, yet the record's chapter is 7 (not 0) and it
does carry a section label. -/
theorem chapter_zero_cex :
    beginsWithTwoDecDigits (str "7") = false ∧
    (mkRec [(str "hs", str "7"), (str "stat", str "01")]).chapter = 7 ∧
    (mkRec [(str "hs", str "7"), (str "stat", str "01")]).chapter ≠ 0 ∧
    chapter_to_section
      (some (mkRec [(str "hs", str "7"), (str "stat", str "01")]).chapter) =
      some (str "II") := by
  decide

/-- C10 amended: for every loaded row whose heading's first-two-character
slice is not a non-empty run of decimal digits (`hs[:2].isdigit()` false;
in particular a one-character digit heading is excluded — it yields that
digit as the chapter), the record's chapter is 0, it carries no section
label, and its citation reads `HTSUS §None, Ch.0, <code>`. Only this
sufficient condition is asserted: an all-zero heading prefix such as "00"
also produces chapter 0 even though the digit test passes. -/
theorem chapter_zero_amended (row : Row)
    (h : pyIsdigit (((rowGet row (str "hs")).getD []).take 2) = false) :
    (mkRec row).chapter = 0 ∧
    chapter_to_section (some (mkRec row).chapter) = none ∧
    devCitation (mkRec row) = str "HTSUS §None, Ch.0, " ++ (mkRec row).hts10 := by
  have hch : (mkRec row).chapter = 0 := by
    simp [mkRec, h]
  refine ⟨hch, ?_, ?_⟩
  · rw [hch]; decide
  · simp only [devCitation, hch]
    have hsec : chapter_to_section (some 0) = none := by decide
    rw [hsec]
    have hk : str "HTSUS §" ++ pyFormatOpt none ++ str ", Ch." ++
        str (toString (0 : Int)) ++ str ", " = str "HTSUS §None, Ch.0, " := by
      decide
    calc str "HTSUS §" ++ pyFormatOpt none ++ str ", Ch." ++
          str (toString (0 : Int)) ++ str ", " ++ (mkRec row).hts10
        = (str "HTSUS §" ++ pyFormatOpt none ++ str ", Ch." ++
            str (toString (0 : Int)) ++ str ", ") ++ (mkRec row).hts10 := by
          simp [List.append_assoc]
      _ = str "HTSUS §None, Ch.0, " ++ (mkRec row).hts10 := by rw [hk]

/-- C10 witness: the amended statement at a row whose heading is "xy". -/
theorem chapter_zero_amended_witness :
    (mkRec [(str "hs", str "xy")]).chapter = 0 ∧
    chapter_to_section (some (mkRec [(str "hs", str "xy")]).chapter) = none ∧
    devCitation (mkRec [(str "hs", str "xy")]) =
      str "HTSUS §None, Ch.0, " ++ (mkRec [(str "hs", str "xy")]).hts10 :=
  chapter_zero_amended [(str "hs", str "xy")] (by decide)

/-- C2 counterexample: a QA run whose single candidate scores 0.1 (below
the 0.2 threshold) answers with the sentinel yet still carries a
supporting excerpt — the excerpt is only omitted on the no-candidates
path, not whenever the answer is the sentinel. -/
theorem qa_excerpt_cex :
    qa (str "SNAP") (str "what rate?") 8
      (fun _ => .ok [⟨str "p1", some (mkRat 9 10),
        some [(str "Description", .vStr (str "Live horses duty three percent"))]⟩])
      (fun _ _ => ⟨str "three percent", some (mkRat 1 10)⟩) =
    .ok { snapshot := str "SNAP", question := str "what rate?"
          answer := sentinel, confidence := 0
          supporting_excerpt :=
            some (str "Description: Live horses duty three percent")
          sources := [mkSource ⟨str "p1", some (mkRat 9 10),
            some [(str "Description",
              .vStr (str "Live horses duty three percent"))]⟩] } ∧
    some (str "Description: Live horses duty three percent") ≠
      (none : Option PStr) := by
  constructor
  · decide
  · decide

/-- C2 amended: the supporting excerpt is absent exactly when no
candidates were collected; when candidates exist the excerpt (the winning
context's snippet) is present even if the winner's low confidence forced
the sentinel answer. The sources list is attached in both cases. -/
theorem qa_excerpt_presence (snap q : PStr) (sources : List Source) :
    (buildQAResponse snap q [] sources).supporting_excerpt = none ∧
    (buildQAResponse snap q [] sources).answer = sentinel ∧
    (buildQAResponse snap q [] sources).sources = sources ∧
    ∀ a rest,
      (buildQAResponse snap q (a :: rest) sources).supporting_excerpt =
        some (snippetOf (pymaxCand a rest).context) ∧
      (buildQAResponse snap q (a :: rest) sources).sources = sources := by
  refine ⟨rfl, rfl, rfl, fun a rest => ⟨?_, ?_⟩⟩ <;> simp [buildQAResponse]

/-- C6: an empty or whitespace-only question fails with the validation
error for every backend and every pipeline (so before any retrieval),
and a search that returns zero hits fails with the distinguishable
not-found error for every pipeline (so the extraction capability is
never consulted). -/
theorem qa_short_circuit (snap q : PStr) (lim : Int)
    (backend : Int → Except PStr (List Point))
    (pipe : PStr → PStr → PipeOut) :
    (pstrip q = [] →
      qa snap q lim backend pipe = .err 400 (str "question cannot be empty")) ∧
    (pstrip q ≠ [] → backend (qaSearchLimit lim) = .ok [] →
      qa snap q lim backend pipe = .err 404 (str "no relevant context found")) := by
  constructor
  · intro h
    simp [qa, h]
  · intro h1 h2
    simp [qa, h1, h2]

/-- C6 witness: a whitespace question is rejected even with a failing
backend, and an empty hit list yields the not-found error with a pipeline
that would otherwise answer. -/
theorem qa_short_circuit_witness :
    qa (str "S") (str "   ") 8 (fun _ => .error (str "down"))
        (fun _ _ => ⟨str "x", some 1⟩) =
      .err 400 (str "question cannot be empty") ∧
    qa (str "S") (str "hi") 8 (fun _ => .ok [])
        (fun _ _ => ⟨str "x", some 1⟩) =
      .err 404 (str "no relevant context found") :=
  ⟨(qa_short_circuit (str "S") (str "   ") 8 _ _).1 (by decide),
   (qa_short_circuit (str "S") (str "hi") 8 _ _).2 (by decide) rfl⟩

/-- C3 amended: the assembled context never exceeds the 1200-character
cap, and the truncated result ends at a whole-word (space) boundary of
the assembled string — except when the first 1200 characters contain no
space at all, in which case the raw 1200-character prefix (a mid-word
cut) is returned. -/
theorem context_truncation (p : Payload) :
    (payloadContext p).length ≤ MAX_CONTEXT_CHARS ∧
    (payloadContext p = assembledContext p ∨
      (payloadContext p ++ [' ']) <+: assembledContext p ∨
      (' ' ∉ (assembledContext p).take MAX_CONTEXT_CHARS ∧
        payloadContext p = (assembledContext p).take MAX_CONTEXT_CHARS)) :=
  pyTruncate_spec (assembledContext p) MAX_CONTEXT_CHARS


/-- Context assembly of a single-key payload whose (space-free) key has
1300 characters: the assembled string is `K ++ ": v"` and the truncated
context is the raw first-1200-character prefix of `K`. -/
theorem bigkey_context (K : PStr) (hKv : str "v" ≠ [])
    (hpref : preferredPass [(K, Value.vStr (str "v"))] = ([], []))
    (hKlen : K.length = 1300) (hnosp : ' ' ∉ K) :
    assembledContext [(K, Value.vStr (str "v"))] = K ++ str ": v" ∧
    payloadContext [(K, Value.vStr (str "v"))] = K.take 1200 := by
  have hnorm : normalizeVal (Value.vStr (str "v")) = str "v" := by decide
  have hrem : remainingPass [] [] [(K, Value.vStr (str "v"))] =
      [K ++ str ": " ++ str "v"] := by
    simp [remainingPass, hnorm, hKv, MAX_CONTEXT_CHARS]
  have h3 : (str ": v").length = 3 := by decide
  have hassem : assembledContext [(K, Value.vStr (str "v"))] =
      K ++ str ": v" := by
    rw [assembledContext, hpref]
    show List.intercalate (str " | ")
      (remainingPass [] [] [(K, Value.vStr (str "v"))]) = K ++ str ": v"
    rw [hrem]
    rw [show List.intercalate (str " | ") [K ++ str ": " ++ str "v"] =
        K ++ str ": " ++ str "v" from by simp [List.intercalate]]
    rw [List.append_assoc]
    exact congrArg (K ++ ·) (by decide)
  have hlen' : (K ++ str ": v").length = 1303 := by
    rw [List.length_append, hKlen, h3]
  refine ⟨hassem, ?_⟩
  rw [payloadContext, hassem]
  rw [show pyTruncate (K ++ str ": v") MAX_CONTEXT_CHARS =
      dropLastWord ((K ++ str ": v").take 1200) from by
    simp only [pyTruncate, MAX_CONTEXT_CHARS]
    rw [if_pos (by rw [hlen']; norm_num)]]
  have htake : (K ++ str ": v").take 1200 = K.take 1200 := by
    apply List.take_append_of_le_length
    rw [hKlen]; norm_num
  have hnosp' : ' ' ∉ K.take 1200 := fun hm => hnosp (List.take_subset _ _ hm)
  rw [htake, dropLastWord_eq_of_not_mem _ hnosp']

/-- C3 counterexample: a payload whose only key is 1300 repeated letters
assembles to a context whose first 1200 characters contain no space; the
truncation then returns a 1200-character mid-word cut, so the result is
neither the unmodified assembled string nor a prefix ending at a space
boundary. -/
theorem context_truncation_cex :
    payloadContext [(List.replicate 1300 'k', .vStr (str "v"))] ≠
      assembledContext [(List.replicate 1300 'k', .vStr (str "v"))] ∧
    ¬((payloadContext [(List.replicate 1300 'k', .vStr (str "v"))] ++ [' ']) <+:
      assembledContext [(List.replicate 1300 'k', .vStr (str "v"))]) := by
  obtain ⟨hassem, hpc⟩ := bigkey_context (List.replicate 1300 'k')
    (by decide) (by decide) (by rw [List.length_replicate])
    (fun hm => absurd (List.eq_of_mem_replicate hm) (by decide))
  have htr : (List.replicate 1300 'k').take 1200 = List.replicate 1200 'k' := by
    rw [List.take_replicate, Nat.min_eq_left (by norm_num)]
  rw [hpc, hassem, htr]
  constructor
  · intro h
    have hl := congrArg List.length h
    rw [List.length_replicate, List.length_append, List.length_replicate] at hl
    have h3 : (str ": v").length = 3 := by decide
    rw [h3] at hl
    norm_num at hl
  · rintro ⟨t, ht⟩
    rw [List.append_assoc] at ht
    have hsplit : List.replicate 1300 'k' = List.replicate 1200 'k' ++
        List.replicate 100 'k' := by
      rw [← List.replicate_add]
    rw [hsplit, List.append_assoc] at ht
    have hcancel : [' '] ++ t = List.replicate 100 'k' ++ str ": v" :=
      List.append_cancel_left ht
    have hhead := congrArg List.head? hcancel
    rw [show (100 : Nat) = 99 + 1 from rfl, List.replicate_succ,
      List.cons_append, List.cons_append] at hhead
    rw [List.head?_cons, List.head?_cons] at hhead
    exact absurd (Option.some.inj hhead) (by decide)

/-- Every binding of the code index comes from some source row: the key
is the derived 10-digit code, the value the record built from that row,
and only non-empty codes are indexed. -/
theorem mem_mkIndex (rows : List Row) (e : PStr × Rec) (h : e ∈ mkIndex rows) :
    ∃ row ∈ rows, e = ((mkRec row).hts10, mkRec row) ∧ (mkRec row).hts10 ≠ [] := by
  suffices haux : ∀ (rs : List Row) (init : List (PStr × Rec)),
      e ∈ rs.foldl
        (fun idx row =>
          let r := mkRec row
          if r.hts10 ≠ [] then idx ++ [(r.hts10, r)] else idx) init →
      e ∈ init ∨ ∃ row ∈ rs, e = ((mkRec row).hts10, mkRec row) ∧
        (mkRec row).hts10 ≠ [] by
    rcases haux rows [] h with h1 | h1
    · cases h1
    · exact h1
  intro rs
  induction rs with
  | nil => intro init h'; exact Or.inl h'
  | cons row rest ih =>
    intro init h'
    simp only [List.foldl_cons] at h'
    rcases ih _ h' with h1 | ⟨row', hmem, he, hne⟩
    · by_cases hr : (mkRec row).hts10 ≠ []
      · simp only [if_pos hr] at h1
        rcases List.mem_append.mp h1 with h2 | h2
        · exact Or.inl h2
        · right
          refine ⟨row, List.mem_cons_self row rest, ?_, hr⟩
          simpa using h2
      · simp only [if_neg hr] at h1
        exact Or.inl h1
    · exact Or.inr ⟨row', List.mem_cons_of_mem row hmem, he, hne⟩

/-- C7: a code found by `get_by_code` (which first strips internal
spaces) is answered with exactly the record built from some loaded source
row, whose rate fields are the row's own cells and whose key is the
stripped query; and when no loaded row derives the queried code,
`get_by_code` returns absent (and, being a total function into `Option`,
never an exception). -/
theorem get_by_code_exact (rows : List Row) (code : PStr) :
    (∀ r, get_by_code rows code = some r →
      ∃ row ∈ rows, r = mkRec row ∧ r.hts10 = stripSpaces code ∧
        r.hts10 ≠ [] ∧
        r.rate_general = rowGet row (str "gen") ∧
        r.rate_special = rowGet row (str "spec") ∧
        r.rate_col2 = rowGet row (str "col2")) ∧
    ((∀ row ∈ rows, (mkRec row).hts10 = [] ∨
        (mkRec row).hts10 ≠ stripSpaces code) →
      get_by_code rows code = none) := by
  constructor
  · intro r hr
    unfold get_by_code indexGet at hr
    cases hf : (mkIndex rows).reverse.find? (fun e => e.1 == stripSpaces code) with
    | none => rw [hf] at hr; cases hr
    | some e =>
      rw [hf] at hr
      have hkey : (e.1 == stripSpaces code) = true := by
        have := List.find?_some hf
        simpa using this
      have hmem : e ∈ (mkIndex rows).reverse := List.mem_of_find?_eq_some hf
      have hmem' : e ∈ mkIndex rows := List.mem_reverse.mp hmem
      obtain ⟨row, hrow, he, hne⟩ := mem_mkIndex rows e hmem'
      have hre : r = e.2 := by
        simp only [Option.map] at hr
        exact (Option.some.inj hr).symm
      have he2 : e.2 = mkRec row := by rw [he]
      have he1 : e.1 = (mkRec row).hts10 := by rw [he]
      refine ⟨row, hrow, by rw [hre, he2], ?_, ?_, ?_, ?_, ?_⟩
      · rw [hre, he2, ← he1]
        exact eq_of_beq hkey
      · rw [hre, he2]; exact hne
      · rw [hre, he2]; rfl
      · rw [hre, he2]; rfl
      · rw [hre, he2]; rfl
  · intro hnone
    unfold get_by_code indexGet
    have hf : (mkIndex rows).reverse.find? (fun e => e.1 == stripSpaces code) =
        none := by
      rw [List.find?_eq_none]
      intro e hmem
      have hmem' : e ∈ mkIndex rows := List.mem_reverse.mp hmem
      obtain ⟨row, hrow, he, hne⟩ := mem_mkIndex rows e hmem'
      rcases hnone row hrow with h1 | h1
      · exact absurd h1 hne
      · have he1 : e.1 = (mkRec row).hts10 := by rw [he]
        rw [he1]
        intro hcontra
        exact h1 (eq_of_beq hcontra)
    rw [hf]
    rfl

/-- C7 witness: the stripped code "01 0203 0405" finds the record of the
only row, with its rate cells intact; the absent code "9999" yields none. -/
theorem get_by_code_exact_witness :
    (∃ row ∈ [[(str "hs", str "01020304"), (str "stat", str "05"),
        (str "gen", str "Free"), (str "spec", str "5%"),
        (str "col2", str "10%")]],
      mkRec [(str "hs", str "01020304"), (str "stat", str "05"),
        (str "gen", str "Free"), (str "spec", str "5%"),
        (str "col2", str "10%")] = mkRec row ∧
      (mkRec [(str "hs", str "01020304"), (str "stat", str "05"),
        (str "gen", str "Free"), (str "spec", str "5%"),
        (str "col2", str "10%")]).hts10 = stripSpaces (str "01 0203 0405") ∧
      (mkRec [(str "hs", str "01020304"), (str "stat", str "05"),
        (str "gen", str "Free"), (str "spec", str "5%"),
        (str "col2", str "10%")]).hts10 ≠ [] ∧
      (mkRec [(str "hs", str "01020304"), (str "stat", str "05"),
        (str "gen", str "Free"), (str "spec", str "5%"),
        (str "col2", str "10%")]).rate_general = rowGet row (str "gen") ∧
      (mkRec [(str "hs", str "01020304"), (str "stat", str "05"),
        (str "gen", str "Free"), (str "spec", str "5%"),
        (str "col2", str "10%")]).rate_special = rowGet row (str "spec") ∧
      (mkRec [(str "hs", str "01020304"), (str "stat", str "05"),
        (str "gen", str "Free"), (str "spec", str "5%"),
        (str "col2", str "10%")]).rate_col2 = rowGet row (str "col2")) ∧
    get_by_code [[(str "hs", str "01020304"), (str "stat", str "05"),
        (str "gen", str "Free"), (str "spec", str "5%"),
        (str "col2", str "10%")]] (str "9876543210") = none :=
  ⟨(get_by_code_exact _ (str "01 0203 0405")).1 _ (by decide),
   (get_by_code_exact _ (str "9876543210")).2 (by decide)⟩

/-- Python `max` over candidates: the result is a member, bounds every
score, and is the first element attaining the maximal score (ties go to
the earlier candidate). -/
theorem pymaxCand_first (rest : List Cand) (a : Cand) :
    pymaxCand a rest ∈ a :: rest ∧
    (∀ c ∈ a :: rest, c.score ≤ (pymaxCand a rest).score) ∧
    (a :: rest).find?
      (fun c => decide ((pymaxCand a rest).score ≤ c.score)) =
      some (pymaxCand a rest) := by
  induction rest generalizing a with
  | nil =>
    refine ⟨List.mem_singleton_self a, ?_, ?_⟩
    · intro c hc
      rw [List.mem_singleton.mp hc]
      simp [pymaxCand]
    · simp [pymaxCand]
  | cons b t ih =>
    have hstep : pymaxCand a (b :: t) =
        pymaxCand (if a.score < b.score then b else a) t := by
      simp [pymaxCand]
    by_cases hab : a.score < b.score
    · rw [hstep, if_pos hab]
      obtain ⟨h1, h2, h3⟩ := ih b
      have hm : b.score ≤ (pymaxCand b t).score := h2 b (List.mem_cons_self b t)
      refine ⟨List.mem_cons_of_mem a h1, ?_, ?_⟩
      · intro c hc
        rcases List.mem_cons.mp hc with hc1 | hc1
        · rw [hc1]; exact le_of_lt (lt_of_lt_of_le hab hm)
        · exact h2 c hc1
      · rw [List.find?_cons_of_neg, h3]
        simp only [decide_eq_true_eq]
        intro hcontra
        exact absurd (lt_of_lt_of_le hab hm) (not_lt.mpr hcontra)
    · rw [hstep, if_neg hab]
      obtain ⟨h1, h2, h3⟩ := ih a
      have hba : b.score ≤ a.score := le_of_not_lt hab
      have hma : a.score ≤ (pymaxCand a t).score := h2 a (List.mem_cons_self a t)
      refine ⟨?_, ?_, ?_⟩
      · rcases List.mem_cons.mp h1 with h4 | h4
        · rw [h4]; exact List.mem_cons_self a (b :: t)
        · exact List.mem_cons_of_mem a (List.mem_cons_of_mem b h4)
      · intro c hc
        rcases List.mem_cons.mp hc with hc1 | hc1
        · rw [hc1]; exact hma
        rcases List.mem_cons.mp hc1 with hc2 | hc2
        · rw [hc2]; exact le_trans hba hma
        · exact h2 c (List.mem_cons_of_mem a hc2)
      · by_cases hda : (pymaxCand a t).score ≤ a.score
        · have hfa : (a :: t).find?
              (fun c => decide ((pymaxCand a t).score ≤ c.score)) = some a :=
            List.find?_cons_of_pos _ (by simpa using hda)
          have haeq : a = pymaxCand a t := Option.some.inj (hfa ▸ h3)
          rw [List.find?_cons_of_pos _ (by simpa using hda)]
          rw [← haeq]
        · have hfa : (a :: t).find?
              (fun c => decide ((pymaxCand a t).score ≤ c.score)) =
              t.find? (fun c => decide ((pymaxCand a t).score ≤ c.score)) :=
            List.find?_cons_of_neg _ (by simpa using hda)
          rw [List.find?_cons_of_neg _ (by simpa using hda),
            List.find?_cons_of_neg, ← hfa, h3]
          simp only [decide_eq_true_eq]
          intro hcontra
          exact hda (le_trans hcontra hba)

/-- C1: with candidates present, the QA endpoint's selection picks the
first-seen maximum-confidence candidate; the threshold test is applied
only to that winner — above the threshold its text and confidence are
returned unchanged, below it both are replaced by the sentinel and
exactly 0 with no fallback to the next-best candidate; with no candidates
the response likewise carries the sentinel and exactly 0 while still
returning the sources list. -/
theorem qa_answer_selection (snap q : PStr) (a : Cand) (rest : List Cand)
    (sources : List Source) (hne : ∀ c ∈ a :: rest, c.answer ≠ []) :
    pymaxCand a rest ∈ a :: rest ∧
    (∀ c ∈ a :: rest, c.score ≤ (pymaxCand a rest).score) ∧
    (a :: rest).find?
      (fun c => decide ((pymaxCand a rest).score ≤ c.score)) =
      some (pymaxCand a rest) ∧
    buildQAResponse snap q (a :: rest) sources =
      (if (pymaxCand a rest).score < MIN_QA_SCORE then
        { snapshot := snap, question := q, answer := sentinel, confidence := 0
          supporting_excerpt := some (snippetOf (pymaxCand a rest).context)
          sources := sources }
      else
        { snapshot := snap, question := q, answer := (pymaxCand a rest).answer
          confidence := (pymaxCand a rest).score
          supporting_excerpt := some (snippetOf (pymaxCand a rest).context)
          sources := sources }) ∧
    buildQAResponse snap q [] sources =
      { snapshot := snap, question := q, answer := sentinel, confidence := 0
        supporting_excerpt := none, sources := sources } := by
  obtain ⟨h1, h2, h3⟩ := pymaxCand_first rest a
  refine ⟨h1, h2, h3, ?_, rfl⟩
  have hba : (pymaxCand a rest).answer ≠ [] := hne _ h1
  by_cases hth : (pymaxCand a rest).score < MIN_QA_SCORE
  · simp [buildQAResponse, hth]
  · simp [buildQAResponse, hth, hba]

/-- C1 witness: the spec's example — confidences 0.1, 0.6, 0.3 with
threshold 0.2 select the 0.6 candidate with text and confidence
unchanged. -/
theorem qa_answer_selection_witness :
    buildQAResponse (str "S") (str "q")
      [⟨str "a1", mkRat 1 10, str "c1", []⟩,
       ⟨str "a2", mkRat 6 10, str "c2", []⟩,
       ⟨str "a3", mkRat 3 10, str "c3", []⟩] [] =
      { snapshot := str "S", question := str "q", answer := str "a2"
        confidence := mkRat 6 10, supporting_excerpt := some (str "c2")
        sources := [] } := by
  have h := qa_answer_selection (str "S") (str "q")
    ⟨str "a1", mkRat 1 10, str "c1", []⟩
    [⟨str "a2", mkRat 6 10, str "c2", []⟩,
     ⟨str "a3", mkRat 3 10, str "c3", []⟩] [] (by decide)
  rw [h.2.2.2.1]
  decide
